import Mathlib

/-!
Verification of the ByteNite web-scraper pipeline
(`fanout-urls/app/main.py`, `scraper-engine/app/main.py`,
`data-assembler/app/main.py`).

The pipeline's pure logic is shallowly embedded: Python dicts carrying
scraped records become a typed `ScrapedItem` structure, Python floats
are modelled as exact rationals with an explicit `FloatVal.inf` value
for `float('inf')` (the only non-finite float the code manipulates),
and effectful steps (browser fetches, directory listings) are passed in
as explicit data.  Python truthiness of the fields the code tests is
modelled explicitly (`None`, `0`, `0.0` and `""` are falsy).
-/

/-- Model of a Python float as the code uses them: an exact rational or
`float('inf')` (the initial value of `min_price` in
`data-assembler/app/main.py` line 52).  The prices the code builds are
decimal literals and regex-parsed decimal amounts, whose comparisons are
faithfully reflected by exact rational arithmetic. -/
inductive FloatVal where
  | fin (q : ℚ)
  | inf
deriving DecidableEq, Repr

/-- Typed model of one scraped record, per the ScrapedItem data model.
Fields that a record may lack (`price`, `price_numeric`, `price_value`,
`error`) are `Option`s, `none` meaning the key is absent or `null`.
The scraper (`scraper-engine/app/main.py` lines 152-174) writes `url`,
`title`, `price`, `buyers` always, `price_numeric` only on the success
path, and `error` as `null` on success or a message on failure;
`price_value` is an alternate numeric key the assembler also consults
(`data-assembler/app/main.py` line 60). -/
structure ScrapedItem where
  url : String := ""
  title : String := "Unknown"
  price : Option String := none
  price_numeric : Option ℚ := none
  price_value : Option ℚ := none
  buyers : ℕ := 0
  error : Option String := none
deriving DecidableEq, Repr

/-- Python truthiness of an optional numeric field, as used by the
`or`-chain `item.get("price_numeric") or item.get("price_value") or 999999`
(`data-assembler/app/main.py` lines 59-61): an absent key (`None`) and
the number `0` are falsy. -/
def pyTruthyNum : Option ℚ → Option ℚ
  | some q => if q = 0 then none else some q
  | none => none

/-- Python truthiness of an optional string field: absent (`None`) and
the empty string are falsy. -/
def pyTruthyStr : Option String → Bool
  | some s => !(s == "")
  | none => false

/-- Truthiness test `item.get("error")` used to skip errored items
(`data-assembler/app/main.py` line 55) and to count successes and errors
(`scraper-engine/app/main.py` lines 213-214). -/
def pyTruthyErr (item : ScrapedItem) : Bool :=
  pyTruthyStr item.error

/-- Numeric value of a digit run, as `int()` reads it. -/
def digitsToNat (ds : List Char) : ℕ :=
  ds.foldl (fun n c => 10 * n + (c.toNat - 48)) 0

/-- Attempt of the regex `\$(\d+(?:\.\d{2})?)` to match immediately after
a `$` that has just been consumed: a non-empty maximal digit run,
optionally followed by `.` and two digits; returns the float value of
the captured group (`float(price_match.group(1))`,
`data-assembler/app/main.py` lines 66-69). -/
def matchAmount (cs : List Char) : Option ℚ :=
  let ds := cs.takeWhile Char.isDigit
  if ds.isEmpty then none
  else
    match cs.dropWhile Char.isDigit with
    | '.' :: d1 :: d2 :: _ =>
        if d1.isDigit ∧ d2.isDigit then
          some ((digitsToNat ds : ℚ) + (digitsToNat [d1, d2] : ℚ) / 100)
        else some ((digitsToNat ds : ℚ))
    | _ => some ((digitsToNat ds : ℚ))

/-- Leftmost search of `re.search(r'\$(\d+(?:\.\d{2})?)', price_str)`
over the characters of the display string: at each `$` the tail is tried;
on failure the search resumes one position further right. -/
def searchAmount : List Char → Option ℚ
  | [] => none
  | '$' :: rest =>
      match matchAmount rest with
      | some v => some v
      | none => searchAmount rest
  | _ :: rest => searchAmount rest

/-- Value the assembler's regex fallback extracts from a price display
string, if any (`data-assembler/app/main.py` lines 65-71). -/
def price_regex_value (s : String) : Option ℚ :=
  searchAmount s.toList

/-- Price resolution for one item, translated from
`data-assembler/app/main.py` lines 58-71: the `or`-chain over
`price_numeric` and `price_value` with high default `999999`, then, when
the default survived and a display string is truthy, the regex fallback
(which keeps `999999` when nothing matches).  In the typed model the
numeric fields are always numbers, so the final
`isinstance(price_numeric, (int, float))` guard is always true. -/
def resolve_price (item : ScrapedItem) : ℚ :=
  let price_numeric : ℚ :=
    match pyTruthyNum item.price_numeric with
    | some q => q
    | none =>
        match pyTruthyNum item.price_value with
        | some q => q
        | none => 999999
  if price_numeric = 999999 ∧ pyTruthyStr item.price then
    match price_regex_value (item.price.getD "") with
    | some v => v
    | none => 999999
  else price_numeric

/-- Comparison `price_numeric < min_price` of a finite price against the
running minimum (which may still be `float('inf')`). -/
def qltF (q : ℚ) : FloatVal → Bool
  | .fin m => q < m
  | .inf => true

/-- One iteration of the loop body of `find_cheapest_item`
(`data-assembler/app/main.py` lines 54-75): skip truthy-error items,
otherwise update the running `(cheapest, min_price)` pair when the
resolved price is strictly below the running minimum. -/
def cheapest_step (acc : Option ScrapedItem × FloatVal) (item : ScrapedItem) :
    Option ScrapedItem × FloatVal :=
  if pyTruthyErr item then acc
  else if qltF (resolve_price item) acc.2 then (some item, .fin (resolve_price item))
  else acc

/-- Translation of `find_cheapest_item` (`data-assembler/app/main.py`
lines 49-77): fold of `cheapest_step` starting from
`(None, float('inf'))`. -/
def find_cheapest_item (all_items : List ScrapedItem) :
    Option ScrapedItem × FloatVal :=
  all_items.foldl cheapest_step (none, .inf)

/-- The assembler's final document (`data-assembler/app/main.py` lines
104-114), with the summary dictionary flattened into fields. -/
structure FinalResult where
  total_items_analyzed : ℕ
  cheapest_item : Option ScrapedItem
  min_price : FloatVal
  summary_title : String
  summary_price : String
  summary_price_value : FloatVal
  summary_url : String
deriving DecidableEq, Repr

/-- Translation of the `final_result` construction
(`data-assembler/app/main.py` lines 101-114).  In the typed model
`title` and `url` are always present, so `cheapest.get("title", "Unknown")`
and `cheapest.get("url", "")` are the fields themselves; `price` may be
absent, so its `.get` default `"Unknown"` is kept. -/
def final_result (all_items : List ScrapedItem) : FinalResult :=
  let r := find_cheapest_item all_items
  { total_items_analyzed := all_items.length
    cheapest_item := r.1
    min_price := r.2
    summary_title := match r.1 with | some c => c.title | none => "No items found"
    summary_price := match r.1 with | some c => c.price.getD "Unknown" | none => "N/A"
    summary_price_value := match r.1 with | some _ => r.2 | none => .fin 0
    summary_url := match r.1 with | some c => c.url | none => "" }

/-- A non-errored item none of whose price fallbacks resolves: no numeric
field and a display string with no `$`-amount. -/
def unresolvable_item : ScrapedItem :=
  { url := "https://www.amazon.com/s?k=widget"
    title := "Widget"
    price := some "price unavailable"
    price_numeric := none
    price_value := none
    buyers := 0
    error := none }

/-- A resolvable cheap item: its `price_numeric` field is present and
below the sentinel. -/
def cheap_item : ScrapedItem :=
  { url := "https://www.amazon.com/s?k=echo+dot"
    title := "Echo Dot"
    price := some "$5.00"
    price_numeric := some 5
    price_value := none
    buyers := 1000
    error := none }

/-- An errored item, as the scraper emits on a caught per-URL exception. -/
def errored_item : ScrapedItem :=
  { url := "https://www.amazon.com/s?k=echo+dot"
    title := "Error"
    price := some "Error"
    price_numeric := none
    price_value := none
    buyers := 0
    error := some "Timeout 30000ms exceeded" }

/-- Order on modelled floats, `inf` greatest. -/
def fvalLE : FloatVal → FloatVal → Prop
  | .fin x, .fin y => x ≤ y
  | .fin _, .inf => True
  | .inf, .fin _ => False
  | .inf, .inf => True

theorem fvalLE_refl (a : FloatVal) : fvalLE a a := by
  cases a <;> simp [fvalLE]

theorem fvalLE_trans {a b c : FloatVal} (h1 : fvalLE a b) (h2 : fvalLE b c) :
    fvalLE a c := by
  cases a <;> cases b <;> cases c <;> simp_all [fvalLE]
  exact le_trans h1 h2

/-- One loop iteration never increases the running minimum. -/
theorem cheapest_step_le (acc : Option ScrapedItem × FloatVal) (item : ScrapedItem) :
    fvalLE (cheapest_step acc item).2 acc.2 := by
  unfold cheapest_step
  split
  · exact fvalLE_refl _
  · split
    · rename_i hq
      cases h2 : acc.2 with
      | fin m =>
          rw [h2] at hq
          simp only [qltF, decide_eq_true_eq] at hq
          simpa [fvalLE] using le_of_lt hq
      | inf => simp [fvalLE]
    · exact fvalLE_refl _

/-- The fold never increases the running minimum. -/
theorem cheapest_fold_le (items : List ScrapedItem) :
    ∀ acc, fvalLE (items.foldl cheapest_step acc).2 acc.2 := by
  induction items with
  | nil => intro acc; exact fvalLE_refl _
  | cons a t ih =>
      intro acc
      simp only [List.foldl_cons]
      exact fvalLE_trans (ih (cheapest_step acc a)) (cheapest_step_le acc a)

/-- After one iteration on a non-errored item, the running minimum is at
most that item's resolved price. -/
theorem cheapest_step_bound (acc : Option ScrapedItem × FloatVal) (i : ScrapedItem)
    (herr : pyTruthyErr i = false) :
    fvalLE (cheapest_step acc i).2 (.fin (resolve_price i)) := by
  unfold cheapest_step
  rw [herr]
  simp only [Bool.false_eq_true, if_false]
  split
  · simp [fvalLE]
  · rename_i hq
    cases h2 : acc.2 with
    | fin m =>
        rw [h2] at hq
        simp only [qltF, decide_eq_true_eq] at hq
        simpa [fvalLE] using le_of_not_lt hq
    | inf =>
        rw [h2] at hq
        simp [qltF] at hq

/-- The final minimum is at most the resolved price of every non-errored
item of the list. -/
theorem cheapest_fold_bound (items : List ScrapedItem) :
    ∀ acc i, i ∈ items → pyTruthyErr i = false →
      fvalLE (items.foldl cheapest_step acc).2 (.fin (resolve_price i)) := by
  induction items with
  | nil => intro acc i hi; cases hi
  | cons a t ih =>
      intro acc i hi herr
      simp only [List.foldl_cons]
      rcases List.mem_cons.mp hi with rfl | hmem
      · exact fvalLE_trans (cheapest_fold_le t _) (cheapest_step_bound acc i herr)
      · exact ih _ i hmem herr

/-- Invariant of the accumulator: either still the initial
`(None, float('inf'))` pair, or a selected item paired with exactly its
own resolved price. -/
def accOK (acc : Option ScrapedItem × FloatVal) : Prop :=
  acc = (none, .inf) ∨ ∃ c m, acc = (some c, .fin m) ∧ resolve_price c = m

theorem cheapest_step_ok (acc : Option ScrapedItem × FloatVal) (i : ScrapedItem)
    (h : accOK acc) : accOK (cheapest_step acc i) := by
  unfold cheapest_step
  split
  · exact h
  · split
    · exact Or.inr ⟨i, resolve_price i, rfl, rfl⟩
    · exact h

theorem cheapest_fold_ok (items : List ScrapedItem) :
    ∀ acc, accOK acc → accOK (items.foldl cheapest_step acc) := by
  induction items with
  | nil => intro acc h; exact h
  | cons a t ih =>
      intro acc h
      simp only [List.foldl_cons]
      exact ih _ (cheapest_step_ok acc a h)

/-- C1 (amended).  An item whose price no fallback resolves gets the
sentinel `999999` as its resolved price, and since `min_price` starts at
`float('inf')` it CAN be selected as cheapest when nothing better exists
(see `c1_cex`).  What does hold: whenever some non-errored item resolves
a price strictly below the sentinel, the item the reduction selects has
resolved price strictly below the sentinel, so no price-unresolvable
item (whose resolved price is exactly `999999`) is ever selected. -/
theorem c1_amended (items : List ScrapedItem)
    (h : ∃ i ∈ items, pyTruthyErr i = false ∧ resolve_price i < 999999) :
    ∃ c m, find_cheapest_item items = (some c, .fin m) ∧ m < 999999 ∧
      resolve_price c = m := by
  obtain ⟨i, hi, herr, hlt⟩ := h
  have hb := cheapest_fold_bound items (none, .inf) i hi herr
  have hok := cheapest_fold_ok items (none, .inf) (Or.inl rfl)
  unfold find_cheapest_item
  rcases hok with h0 | ⟨c, m, heq, hres⟩
  · rw [show items.foldl cheapest_step (none, .inf) = (none, .inf) from h0] at hb
    simp [fvalLE] at hb
  · rw [show items.foldl cheapest_step (none, .inf) = (some c, .fin m) from heq] at hb
    simp only [fvalLE] at hb
    exact ⟨c, m, heq, lt_of_le_of_lt hb hlt, hres⟩

/-- C1 counterexample: the claim says a price-unresolvable item is never
selected as cheapest, even if it is the only item; but on the single
non-errored, price-unresolvable item the reduction selects that item,
with `min_price` equal to the sentinel (`999999 < float('inf')` at
`data-assembler/app/main.py` line 73). -/
theorem c1_cex :
    find_cheapest_item [unresolvable_item] =
      (some unresolvable_item, .fin 999999) := by decide

/-- Witness for `c1_amended` on a concrete two-item list. -/
theorem c1_wit :
    (∃ i ∈ [unresolvable_item, cheap_item],
        pyTruthyErr i = false ∧ resolve_price i < 999999) ∧
    (∃ c m, find_cheapest_item [unresolvable_item, cheap_item] = (some c, .fin m) ∧
      m < 999999 ∧ resolve_price c = m) :=
  ⟨by decide, c1_amended [unresolvable_item, cheap_item] (by decide)⟩

/-- The fold skips every truthy-error item. -/
theorem cheapest_fold_skip (items : List ScrapedItem) :
    ∀ acc, (∀ i ∈ items, pyTruthyErr i = true) → items.foldl cheapest_step acc = acc := by
  induction items with
  | nil => intro acc _; rfl
  | cons a t ih =>
      intro acc h
      simp only [List.foldl_cons]
      have ha : cheapest_step acc a = acc := by
        unfold cheapest_step
        rw [h a (List.mem_cons_self a t)]
        simp
      rw [ha]
      exact ih acc (fun i hi => h i (List.mem_cons_of_mem a hi))

/-- C2 (amended).  When no non-errored item exists (including the empty
list), `cheapest_item` is `null` and — contrary to the claim — the
top-level `min_price` field is written as `float('inf')`, the reduction's
initial value (`data-assembler/app/main.py` line 107 stores `min_price`
unguarded); only the summary's `price_value` is reported as `0`
(line 111).  Moreover the original precondition "no non-errored item
with a resolvable price" does not give a null `cheapest_item`: a
non-errored price-unresolvable item is still selected (see `c2_cex`). -/
theorem c2_amended (items : List ScrapedItem)
    (h : ∀ i ∈ items, pyTruthyErr i = true) :
    (final_result items).cheapest_item = none ∧
    (final_result items).min_price = .inf ∧
    (final_result items).summary_price_value = .fin 0 ∧
    (final_result items).summary_title = "No items found" := by
  have hf : find_cheapest_item items = (none, .inf) :=
    cheapest_fold_skip items (none, .inf) h
  simp [final_result, hf]

/-- C2 counterexample: on the empty item list the written `min_price` is
`float('inf')`, not `0`; and on a list holding one non-errored item whose
price no fallback resolves, `cheapest_item` is not `null`. -/
theorem c2_cex :
    ¬ (final_result []).min_price = .fin 0 ∧
    ¬ (final_result [unresolvable_item]).cheapest_item = none := by decide

/-- Witness for `c2_amended` on a concrete all-errored list. -/
theorem c2_wit :
    (∀ i ∈ [errored_item], pyTruthyErr i = true) ∧
    ((final_result [errored_item]).cheapest_item = none ∧
     (final_result [errored_item]).min_price = .inf ∧
     (final_result [errored_item]).summary_price_value = .fin 0 ∧
     (final_result [errored_item]).summary_title = "No items found") :=
  ⟨by decide, c2_amended [errored_item] (by decide)⟩

/-- C10 (confirmed).  A non-errored item with display price `"$12.50"`
and no numeric price field resolves through the regex fallback to
`12.50`, and that value is what the minimum-price comparison uses: as
sole item it is selected with `min_price = 12.50`. -/
theorem c10_display_price_fallback (item : ScrapedItem)
    (h1 : item.price = some "$12.50") (h2 : item.price_numeric = none)
    (h3 : item.price_value = none) (h4 : item.error = none) :
    resolve_price item = 25/2 ∧
    find_cheapest_item [item] = (some item, .fin (25/2)) := by
  have hres : resolve_price item = 25/2 := by
    simp [resolve_price, h1, h2, h3, pyTruthyNum, pyTruthyStr, price_regex_value,
      searchAmount, matchAmount, digitsToNat]
    norm_num
  refine ⟨hres, ?_⟩
  simp [find_cheapest_item, cheapest_step, pyTruthyErr, pyTruthyStr, h4, hres, qltF]

/-- A concrete item carrying only the display price `"$12.50"`. -/
def display_price_item : ScrapedItem :=
  { url := "https://www.amazon.com/s?k=echo+dot"
    title := "Echo Dot"
    price := some "$12.50"
    price_numeric := none
    price_value := none
    buyers := 0
    error := none }

/-- Witness for `c10_display_price_fallback` at a concrete item. -/
theorem c10_wit :
    (display_price_item.price = some "$12.50" ∧
     display_price_item.price_numeric = none ∧
     display_price_item.price_value = none ∧
     display_price_item.error = none) ∧
    (resolve_price display_price_item = 25/2 ∧
     find_cheapest_item [display_price_item] =
       (some display_price_item, .fin (25/2))) :=
  ⟨⟨rfl, rfl, rfl, rfl⟩, c10_display_price_fallback display_price_item rfl rfl rfl rfl⟩

/-! Partitioner (`fanout-urls/app/main.py`). -/

/-- Characters `str.strip()` removes at both ends (ASCII whitespace; the
URLs handled here are ASCII). -/
def isPySpace (c : Char) : Bool :=
  c = ' ' || c = '\t' || c = '\n' || c = '\r' || c = '\x0b' || c = '\x0c'

/-- Model of Python `url.strip()`. -/
def pyStrip (s : String) : String :=
  ⟨((s.toList.dropWhile isPySpace).reverse.dropWhile isPySpace).reverse⟩

/-- Does `hay` start with `needle`? -/
def listStartsWith : List Char → List Char → Bool
  | _, [] => true
  | [], _ :: _ => false
  | h :: hs, n :: ns => h = n && listStartsWith hs ns

/-- Contiguous-substring test over characters; `needle` may match at any
position, and the empty needle always matches — the semantics of
Python's `needle in hay`. -/
def listContainsSub (hay needle : List Char) : Bool :=
  match hay with
  | [] => needle.isEmpty
  | c :: rest => listStartsWith (c :: rest) needle || listContainsSub rest needle

/-- Model of Python `needle in hay` on strings. -/
def strContains (hay needle : String) : Bool :=
  listContainsSub hay.toList needle.toList

/-- The three URLs hardcoded at `fanout-urls/app/main.py` lines 82-86. -/
def hardcoded_amazon_urls : List String :=
  ["https://www.amazon.com/s?k=echo+dot&ref=nb_sb_noss",
   "https://www.amazon.com/s?k=kindle+paperwhite&ref=nb_sb_noss",
   "https://www.amazon.com/s?k=fire+tv+stick&ref=nb_sb_noss"]

/-- URL acquisition, translated from `fanout-urls/app/main.py` lines
81-119.  `params_urls` is the `urls` entry of the parameters when the key
is present (in the typed model its elements are strings, so the
`isinstance(url, str)` part of the guard is always true);
`source_files` holds the raw contents of the files of the source
directory.  The parameter list is used only when it is truthy
(non-empty) and every entry contains `'amazon.com'`; in every other case
the hardcoded list is used — on the no-parameter path the source files
are read and logged (lines 104-119) but never contribute URLs. -/
def acquire_urls (params_urls : Option (List String))
    (source_files : List String) : List String :=
  match params_urls with
  | some param_urls =>
      if param_urls.isEmpty then hardcoded_amazon_urls
      else if param_urls.all (fun url => strContains url "amazon.com") then param_urls
      else hardcoded_amazon_urls
  | none =>
      let _ := source_files
      hardcoded_amazon_urls

/-- Modelled from the spec: a source file as the specified fallback path
reads it — a JSON document that is either a bare array of URLs or an
object with a `urls` field, or, on JSON parse failure, newline-delimited
text.  This definition exists only to compare the code against the
spec's contract; the code itself never feeds source files into
chunking. -/
inductive SourceFileJson where
  | arr (urls : List String)
  | obj (urls : List String)
  | invalid (lines : List String)

/-- Modelled from the spec: "scans all files in a source directory,
parsing each as a JSON document (either a bare array of URLs or an
object with a `urls` field) and, on JSON parse failure, falling back to
treating the file as newline-delimited text and collecting lines that
begin with an HTTP scheme" (spec section 4.2). -/
def spec_scan_urls (files : List SourceFileJson) : List String :=
  files.foldl
    (fun acc f =>
      acc ++ match f with
        | .arr urls => urls
        | .obj urls => urls
        | .invalid lines =>
            lines.filter (fun l => listStartsWith l.toList "http".toList))
    []

/-- The allow-list predicate of `fanout-urls/app/main.py` line 129:
`if url and ('amazon.com' in url or 'amzn.to' in url)` on the stripped
URL. -/
def url_allowed (url : String) : Bool :=
  !(url == "") && (strContains url "amazon.com" || strContains url "amzn.to")

/-- URL validation loop, translated from `fanout-urls/app/main.py` lines
124-136: each URL is stripped; it is appended to `valid_urls` exactly
when the stripped string is truthy (non-empty) and contains
`'amazon.com'` or `'amzn.to'`.  Rejected URLs are only logged — there is
no error channel. -/
def validate_urls (all_urls : List String) : List String :=
  all_urls.foldl
    (fun valid_urls url =>
      let url := pyStrip url
      if url_allowed url then valid_urls ++ [url] else valid_urls)
    []

/-- Chunking loop of `fanout-urls/app/main.py` lines 142-152:
`for i in range(0, len(valid_urls), chunk_size)` emits the slice
`valid_urls[i : i + chunk_size]` per iteration, which takes the first
`chunk_size` elements and recurses on the rest.  `fuel` bounds the
number of iterations; since every iteration with `chunk_size ≥ 1`
consumes at least one element, `fuel = length` reproduces the loop
exactly (the code never runs it with `chunk_size < 1`: that would make
`range` raise). -/
def chunksGo (chunk_size : ℕ) : ℕ → List String → List (List String)
  | _, [] => []
  | 0, _ :: _ => []
  | fuel + 1, u :: rest =>
      List.take chunk_size (u :: rest) ::
        chunksGo chunk_size fuel (List.drop chunk_size (u :: rest))

/-- The chunk payloads the partitioner writes, in write order. -/
def makeChunks (valid_urls : List String) (chunk_size : ℕ) : List (List String) :=
  chunksGo chunk_size valid_urls.length valid_urls

/-- Index parsed by `chunk_pattern.match` from a filename
(`fanout-urls/app/main.py` lines 54-64): the compiled pattern is
`data_(\d+)\.bin`, anchored at the start only, so the filename must
begin with `data_`, a non-empty digit run, then `.bin`; anything may
follow. -/
def parse_chunk_index (filename : String) : Option ℕ :=
  match filename.toList with
  | 'd' :: 'a' :: 't' :: 'a' :: '_' :: rest =>
      let ds := rest.takeWhile Char.isDigit
      if !ds.isEmpty && listStartsWith (rest.dropWhile Char.isDigit) ".bin".toList then
        some (digitsToNat ds)
      else none
  | _ => none

/-- Insertion of one element into a sorted list; `pySorted` below models
Python's `sorted` on the parsed indices (stable ascending order — on
natural numbers any correct sort produces the same list). -/
def insertSorted (x : ℕ) : List ℕ → List ℕ
  | [] => [x]
  | y :: ys => if x ≤ y then x :: y :: ys else y :: insertSorted x ys

/-- Model of Python `sorted` on a list of indices. -/
def pySorted (l : List ℕ) : List ℕ :=
  l.foldr insertSorted []

/-- Index allocation of `save_chunk` (`fanout-urls/app/main.py` lines
52-66): collect the indices of filenames matching the chunk pattern and
return `sorted(chunk_indices)[-1] + 1` when any exist, else `0`. -/
def allocate_next_index (files : List String) : ℕ :=
  let chunk_indices := files.filterMap parse_chunk_index
  if chunk_indices.isEmpty then 0
  else (pySorted chunk_indices).getLastD 0 + 1

/-- Iteration count of the chunking loop: the arithmetic step relating
one peeled iteration to the ceiling count. -/
theorem chunk_count_arith (k n : ℕ) (hk : 1 ≤ k) (hn : 1 ≤ n) :
    (n - k + k - 1) / k + 1 = (n + k - 1) / k := by
  rcases le_or_lt k n with h | h
  · have h1 : n - k + k - 1 = n - 1 := by omega
    have h2 : n + k - 1 = (n - 1) + k := by omega
    rw [h1, h2, Nat.add_div_right _ (by omega)]
  · have h1 : n - k = 0 := by omega
    have h2 : (0 + k - 1) / k = 0 := Nat.div_eq_of_lt (by omega)
    have h3 : (n + k - 1) / k = 1 :=
      Nat.div_eq_of_lt_le (by omega) (by omega)
    rw [h1, h2, h3]

theorem chunksGo_length (k : ℕ) (hk : 1 ≤ k) :
    ∀ fuel l, List.length l ≤ fuel →
      (chunksGo k fuel l).length = (l.length + k - 1) / k := by
  intro fuel
  induction fuel with
  | zero =>
      intro l hl
      have h0 : l = [] := List.eq_nil_of_length_eq_zero (by omega)
      subst h0
      simp [chunksGo, Nat.div_eq_of_lt (show k - 1 < k by omega)]
  | succ n ih =>
      intro l hl
      cases l with
      | nil => simp [chunksGo, Nat.div_eq_of_lt (show k - 1 < k by omega)]
      | cons u rest =>
          simp only [chunksGo, List.length_cons]
          rw [ih (List.drop k (u :: rest))
            (by simp only [List.length_drop, List.length_cons]
                simp only [List.length_cons] at hl
                omega)]
          rw [List.length_drop, List.length_cons]
          exact chunk_count_arith k (rest.length + 1) hk (by omega)

theorem chunksGo_flatten (k : ℕ) (hk : 1 ≤ k) :
    ∀ fuel l, List.length l ≤ fuel → (chunksGo k fuel l).flatten = l := by
  intro fuel
  induction fuel with
  | zero =>
      intro l hl
      have h0 : l = [] := List.eq_nil_of_length_eq_zero (by omega)
      subst h0
      simp [chunksGo]
  | succ n ih =>
      intro l hl
      cases l with
      | nil => simp [chunksGo]
      | cons u rest =>
          simp only [chunksGo, List.flatten_cons]
          rw [ih (List.drop k (u :: rest))
            (by simp only [List.length_drop, List.length_cons]
                simp only [List.length_cons] at hl
                omega)]
          exact List.take_append_drop k (u :: rest)

theorem chunksGo_sizes (k : ℕ) (hk : 1 ≤ k) :
    ∀ fuel l, List.length l ≤ fuel →
      ∀ c ∈ chunksGo k fuel l, c ≠ [] ∧ c.length ≤ k := by
  intro fuel
  induction fuel with
  | zero =>
      intro l hl c hc
      have h0 : l = [] := List.eq_nil_of_length_eq_zero (by omega)
      subst h0
      simp [chunksGo] at hc
  | succ n ih =>
      intro l hl c hc
      cases l with
      | nil => simp [chunksGo] at hc
      | cons u rest =>
          simp only [chunksGo] at hc
          rcases List.mem_cons.mp hc with rfl | hmem
          · refine ⟨?_, List.length_take_le k _⟩
            have hpos : 0 < (List.take k (u :: rest)).length := by
              rw [List.length_take, List.length_cons]
              omega
            exact List.ne_nil_of_length_pos hpos
          · exact ih (List.drop k (u :: rest))
              (by simp only [List.length_drop, List.length_cons]
                  simp only [List.length_cons] at hl
                  omega) c hmem

/-- C3 (confirmed).  For a non-empty filtered URL list and
`chunk_size ≥ 1`, the chunking loop emits exactly
`ceil(n / chunk_size)` payloads, each non-empty of size at most
`chunk_size`, and their concatenation in write order is exactly the
filtered list — no duplication, loss or reordering. -/
theorem c3_partition (all_urls : List String) (chunk_size : ℕ)
    (hk : 1 ≤ chunk_size) (hne : validate_urls all_urls ≠ []) :
    (makeChunks (validate_urls all_urls) chunk_size).length =
      ((validate_urls all_urls).length + chunk_size - 1) / chunk_size ∧
    (∀ c ∈ makeChunks (validate_urls all_urls) chunk_size,
      c ≠ [] ∧ c.length ≤ chunk_size) ∧
    (makeChunks (validate_urls all_urls) chunk_size).flatten = validate_urls all_urls := by
  refine ⟨?_, ?_, ?_⟩
  · exact chunksGo_length chunk_size hk _ _ le_rfl
  · exact chunksGo_sizes chunk_size hk _ _ le_rfl
  · exact chunksGo_flatten chunk_size hk _ _ le_rfl

/-- Witness for `c3_partition` on a concrete three-URL input (two
surviving the filter) with `chunk_size = 2`. -/
theorem c3_wit :
    (1 ≤ 2 ∧
     validate_urls ["https://www.amazon.com/a", " https://amzn.to/b ", "nope"] ≠ []) ∧
    ((makeChunks (validate_urls
        ["https://www.amazon.com/a", " https://amzn.to/b ", "nope"]) 2).length =
      ((validate_urls ["https://www.amazon.com/a", " https://amzn.to/b ", "nope"]).length
        + 2 - 1) / 2 ∧
     (∀ c ∈ makeChunks (validate_urls
        ["https://www.amazon.com/a", " https://amzn.to/b ", "nope"]) 2,
       c ≠ [] ∧ c.length ≤ 2) ∧
     (makeChunks (validate_urls
        ["https://www.amazon.com/a", " https://amzn.to/b ", "nope"]) 2).flatten =
      validate_urls ["https://www.amazon.com/a", " https://amzn.to/b ", "nope"]) :=
  ⟨⟨by decide, by decide⟩,
    c3_partition ["https://www.amazon.com/a", " https://amzn.to/b ", "nope"] 2
      (by decide) (by decide)⟩

/-- C4 (amended).  The URLs the partitioner chunks are either the
configuration list (used exactly when it is non-empty and every entry
contains `'amazon.com'`) or the three hardcoded Amazon URLs; the
source-directory files are read and logged but never contribute. -/
theorem c4_amended (params_urls : Option (List String)) (source_files : List String) :
    acquire_urls params_urls source_files = hardcoded_amazon_urls ∨
    ∃ us, params_urls = some us ∧ us ≠ [] ∧
      us.all (fun url => strContains url "amazon.com") = true ∧
      acquire_urls params_urls source_files = us := by
  cases params_urls with
  | none => exact Or.inl rfl
  | some us =>
      by_cases h1 : us.isEmpty
      · exact Or.inl (by simp [acquire_urls, h1])
      · by_cases h2 : us.all (fun url => strContains url "amazon.com")
        · refine Or.inr ⟨us, rfl, ?_, h2, by simp [acquire_urls, h1, h2]⟩
          simpa [List.isEmpty_iff] using h1
        · exact Or.inl (by simp [acquire_urls, h1, h2])

/-- C4 counterexample: with no configuration URL list and a source
directory holding one file whose JSON array carries a URL, the claim
makes the chunked list equal either the (absent) configuration list or
the scan collection `["https://www.amazon.com/s?k=zzz"]`; but the code
chunks the hardcoded list, which does not even contain that URL — the
source file is only logged (`fanout-urls/app/main.py` lines 103-119). -/
theorem c4_cex :
    acquire_urls none ["[\"https://www.amazon.com/s?k=zzz\"]"] = hardcoded_amazon_urls ∧
    spec_scan_urls [SourceFileJson.arr ["https://www.amazon.com/s?k=zzz"]] =
      ["https://www.amazon.com/s?k=zzz"] ∧
    ¬ "https://www.amazon.com/s?k=zzz" ∈ hardcoded_amazon_urls :=
  ⟨rfl, rfl, by decide⟩

theorem validate_fold (l : List String) :
    ∀ acc, l.foldl (fun valid_urls url =>
        let url := pyStrip url
        if url_allowed url then valid_urls ++ [url] else valid_urls) acc =
      acc ++ (l.map pyStrip).filter url_allowed := by
  induction l with
  | nil => intro acc; simp
  | cons u t ih =>
      intro acc
      simp only [List.foldl_cons, List.map_cons, List.filter_cons]
      by_cases h : url_allowed (pyStrip u)
      · simp only [h, if_true]
        rw [ih]
        simp
      · simp only [h, Bool.false_eq_true, if_false]
        rw [ih]

/-- The validation loop is exactly strip-then-filter by the allow-list
predicate. -/
theorem validate_urls_eq (all_urls : List String) :
    validate_urls all_urls = (all_urls.map pyStrip).filter url_allowed := by
  simpa using validate_fold all_urls []

/-- C6 (amended).  A URL survives the validation loop exactly when its
stripped form is non-empty and contains `'amazon.com'` or `'amzn.to'`,
and rejected URLs are dropped with no error record; at the validation
stage the example list filters to the single Amazon URL.  But the
end-to-end scenario fails: supplied as the configuration list, the
example input contains one entry without `'amazon.com'`, so the whole
list is rejected (`fanout-urls/app/main.py` line 95) and chunking runs
on the three hardcoded URLs, yielding three chunks. -/
theorem c6_amended :
    (∀ all_urls : List String,
        validate_urls all_urls = (all_urls.map pyStrip).filter url_allowed) ∧
    validate_urls ["https://www.amazon.com/s?k=echo+dot", "https://not-amazon.example/x"] =
      ["https://www.amazon.com/s?k=echo+dot"] ∧
    makeChunks (validate_urls (acquire_urls
        (some ["https://www.amazon.com/s?k=echo+dot", "https://not-amazon.example/x"])
        [])) 1 =
      [["https://www.amazon.com/s?k=echo+dot&ref=nb_sb_noss"],
       ["https://www.amazon.com/s?k=kindle+paperwhite&ref=nb_sb_noss"],
       ["https://www.amazon.com/s?k=fire+tv+stick&ref=nb_sb_noss"]] :=
  ⟨validate_urls_eq, by decide, by decide⟩

/-- C6 counterexample: the claimed scenario output — exactly one chunk
holding only the Amazon URL — is not what the code produces for that
input (it produces the three hardcoded chunks, see `c6_amended`). -/
theorem c6_cex :
    makeChunks (validate_urls (acquire_urls
        (some ["https://www.amazon.com/s?k=echo+dot", "https://not-amazon.example/x"])
        [])) 1 ≠
      [["https://www.amazon.com/s?k=echo+dot"]] := by decide

theorem insertSorted_mem (x : ℕ) :
    ∀ (l : List ℕ) (a : ℕ), a ∈ insertSorted x l ↔ a = x ∨ a ∈ l := by
  intro l
  induction l with
  | nil => intro a; simp [insertSorted]
  | cons y ys ih =>
      intro a
      simp only [insertSorted]
      by_cases h : x ≤ y
      · simp [h, List.mem_cons]
      · simp only [h, if_false, List.mem_cons, ih a]
        tauto

theorem insertSorted_pairwise (x : ℕ) :
    ∀ (l : List ℕ), l.Pairwise (· ≤ ·) → (insertSorted x l).Pairwise (· ≤ ·) := by
  intro l
  induction l with
  | nil => intro _; simp [insertSorted]
  | cons y ys ih =>
      intro h
      rw [List.pairwise_cons] at h
      obtain ⟨hy, hys⟩ := h
      simp only [insertSorted]
      by_cases hxy : x ≤ y
      · rw [if_pos hxy, List.pairwise_cons]
        refine ⟨?_, List.pairwise_cons.mpr ⟨hy, hys⟩⟩
        intro b hb
        rcases List.mem_cons.mp hb with rfl | hbys
        · exact hxy
        · exact le_trans hxy (hy b hbys)
      · rw [if_neg hxy, List.pairwise_cons]
        refine ⟨?_, ih hys⟩
        intro b hb
        rcases (insertSorted_mem x ys b).mp hb with rfl | hbys
        · omega
        · exact hy b hbys

theorem pySorted_mem (l : List ℕ) (a : ℕ) : a ∈ pySorted l ↔ a ∈ l := by
  induction l with
  | nil => simp [pySorted]
  | cons x t ih =>
      show a ∈ insertSorted x (pySorted t) ↔ _
      rw [insertSorted_mem x (pySorted t) a, ih]
      simp [List.mem_cons, eq_comm]

theorem pySorted_pairwise (l : List ℕ) : (pySorted l).Pairwise (· ≤ ·) := by
  induction l with
  | nil => simp [pySorted]
  | cons x t ih => exact insertSorted_pairwise x (pySorted t) ih

theorem pySorted_ne_nil (l : List ℕ) (h : l ≠ []) : pySorted l ≠ [] := by
  obtain ⟨x, hx⟩ := List.exists_mem_of_ne_nil l h
  exact List.ne_nil_of_mem ((pySorted_mem l x).mpr hx)

theorem getLastD_mem_of_ne (l : List ℕ) (h : l ≠ []) : l.getLastD 0 ∈ l := by
  rw [List.getLastD_eq_getLast?, List.getLast?_eq_getLast l h]
  simp [List.getLast_mem]

/-- Seed-bound helper: the last element of a sorted list dominates a
lower bound of all its elements. -/
theorem le_getLastD (l : List ℕ) :
    ∀ d, l.Pairwise (· ≤ ·) → (∀ y ∈ l, d ≤ y) → d ≤ l.getLastD d := by
  induction l with
  | nil => intro d _ _; exact le_rfl
  | cons y ys ih =>
      intro d hp hd
      rw [List.getLastD_cons]
      have hy : d ≤ y := hd y (List.mem_cons_self y ys)
      rw [List.pairwise_cons] at hp
      exact le_trans hy (ih y hp.2 hp.1)

/-- Every element of a sorted list is at most its last element. -/
theorem sorted_le_getLastD (l : List ℕ) :
    ∀ d, l.Pairwise (· ≤ ·) → ∀ a ∈ l, a ≤ l.getLastD d := by
  induction l with
  | nil => intro d _ a ha; cases ha
  | cons x xs ih =>
      intro d hp a ha
      rw [List.getLastD_cons]
      rw [List.pairwise_cons] at hp
      rcases List.mem_cons.mp ha with rfl | haxs
      · exact le_getLastD xs a hp.2 hp.1
      · exact ih x hp.2 a haxs

theorem le_foldl_max (l : List ℕ) : ∀ a, a ≤ l.foldl Nat.max a := by
  induction l with
  | nil => intro a; exact le_rfl
  | cons x t ih =>
      intro a
      simp only [List.foldl_cons]
      exact le_trans (Nat.le_max_left a x) (ih (Nat.max a x))

theorem mem_le_foldl_max (l : List ℕ) : ∀ a b, b ∈ l → b ≤ l.foldl Nat.max a := by
  induction l with
  | nil => intro a b hb; cases hb
  | cons x t ih =>
      intro a b hb
      simp only [List.foldl_cons]
      rcases List.mem_cons.mp hb with rfl | hbt
      · exact le_trans (Nat.le_max_right a b) (le_foldl_max t (Nat.max a b))
      · exact ih (Nat.max a x) b hbt

theorem foldl_max_cases (l : List ℕ) :
    ∀ a, l.foldl Nat.max a = a ∨ l.foldl Nat.max a ∈ l := by
  induction l with
  | nil => intro a; exact Or.inl rfl
  | cons x t ih =>
      intro a
      simp only [List.foldl_cons]
      rcases ih (Nat.max a x) with h | h
      · have hm : Nat.max a x = a ∨ Nat.max a x = x := by
          rcases Nat.le_total a x with hax | hax
          · exact Or.inr (Nat.max_eq_right hax)
          · exact Or.inl (Nat.max_eq_left hax)
        rcases hm with hm | hm
        · exact Or.inl (h.trans hm)
        · exact Or.inr (List.mem_cons.mpr (Or.inl (h.trans hm)))
      · exact Or.inr (List.mem_cons.mpr (Or.inr h))

/-- The last element of the sorted index list is the maximum of the
indices. -/
theorem sortedLast_eq_foldl_max (l : List ℕ) (h : l ≠ []) :
    (pySorted l).getLastD 0 = l.foldl Nat.max 0 := by
  apply Nat.le_antisymm
  · exact mem_le_foldl_max l 0 _
      ((pySorted_mem l _).mp (getLastD_mem_of_ne _ (pySorted_ne_nil l h)))
  · rcases foldl_max_cases l 0 with h0 | hmem
    · rw [h0]; exact Nat.zero_le _
    · exact sorted_le_getLastD (pySorted l) 0 (pySorted_pairwise l) _
        ((pySorted_mem l _).mpr hmem)

/-- C5 (confirmed).  The allocated index is one plus the maximum of the
indices parsed from filenames matching the chunk pattern
(`foldl Nat.max 0` computes that maximum over the non-empty index list),
or `0` when no filename matches; on indices `{0, 2, 5}` the next index
is `6`. -/
theorem c5_next_index :
    (∀ files : List String,
      allocate_next_index files =
        (if (files.filterMap parse_chunk_index).isEmpty then 0
         else (files.filterMap parse_chunk_index).foldl Nat.max 0 + 1)) ∧
    allocate_next_index ["data_0.bin", "data_2.bin", "data_5.bin"] = 6 := by
  constructor
  · intro files
    unfold allocate_next_index
    by_cases h : (files.filterMap parse_chunk_index).isEmpty
    · simp [h]
    · simp only [h, Bool.false_eq_true, if_false]
      rw [sortedLast_eq_foldl_max _ (by simpa [List.isEmpty_iff] using h)]
  · decide

/-! Extractor (`scraper-engine/app/main.py`). -/

/-- Outcome of the per-container field extraction
(`scraper-engine/app/main.py` lines 83-150): the title after the pattern
chain (the sentinel `"Unknown"` when no brand pattern matched), the price
display text (`"Unknown"` when no price element was found), the numeric
price (the sentinel `999999` when no `$`-amount matched inside the
display text), and the purchase count (`0` when no pattern yielded a
positive integer).  The browser page itself is an external collaborator;
what the retention check at lines 152-160 consumes is exactly these four
resolved values. -/
structure Container where
  title : String
  price : String
  price_numeric : ℚ
  buyers : ℕ
deriving DecidableEq, Repr

/-- Outcome of the effectful part of one `scrape_amazon_search` call.
`launchFailure` is an exception raised before the `try` block begins —
`p.chromium.launch(...)` at line 58 or `browser.new_page()` at line 59 —
which no handler catches; `failure` is an exception raised inside the
`try` block (navigation, timeout, selector or extraction errors, lines
61-164), caught at line 165; `success` carries the extraction outcomes
of the discovered product containers. -/
inductive FetchOutcome where
  | launchFailure (e : String)
  | failure (e : String)
  | success (containers : List Container)

/-- The single error record built in the `except` handler
(`scraper-engine/app/main.py` lines 168-174); note it carries no
`price_numeric` key. -/
def error_scraped_item (url e : String) : ScrapedItem :=
  { url := url
    title := "Error"
    price := some "Error"
    price_numeric := none
    price_value := none
    buyers := 0
    error := some e }

/-- The product record appended for a retained container
(`scraper-engine/app/main.py` lines 153-160). -/
def success_scraped_item (url : String) (c : Container) : ScrapedItem :=
  { url := url
    title := c.title
    price := some c.price
    price_numeric := some c.price_numeric
    price_value := none
    buyers := c.buyers
    error := none }

/-- The retention loop over discovered containers
(`scraper-engine/app/main.py` lines 80-160): at most 10 containers are
examined (`range(min(10, count))`), and a record is appended exactly
when both the extracted title and the extracted price display differ
from `"Unknown"` (line 152). -/
def extract_retained (url : String) (containers : List Container) :
    List ScrapedItem :=
  (containers.take 10).foldl
    (fun products c =>
      if c.title ≠ "Unknown" ∧ c.price ≠ "Unknown" then
        products ++ [success_scraped_item url c]
      else products)
    []

/-- One `scrape_amazon_search(url, params)` call
(`scraper-engine/app/main.py` lines 55-174) as a function of the fetch
outcome: an exception before the `try` block propagates to the caller;
an exception inside it yields exactly the one error record; a successful
fetch yields the retained records (the empty list when no container was
discovered, lines 69-75). -/
def scrape_amazon_search (url : String) (outcome : FetchOutcome) :
    Except String (List ScrapedItem) :=
  match outcome with
  | .launchFailure e => .error e
  | .failure e => .ok [error_scraped_item url e]
  | .success containers => .ok (extract_retained url containers)

/-- The per-chunk URL loop of `process_chunks`
(`scraper-engine/app/main.py` lines 195-205): `scraped_items` is
extended with each URL's items in order; an exception propagating out of
`scrape_amazon_search` has no handler in the loop and aborts it. -/
def process_chunk_go (fetch : String → FetchOutcome)
    (scraped_items : List ScrapedItem) :
    List String → Except String (List ScrapedItem)
  | [] => .ok scraped_items
  | url :: rest =>
      match scrape_amazon_search url (fetch url) with
      | .error e => .error e
      | .ok items => process_chunk_go fetch (scraped_items ++ items) rest

/-- Items a chunk's URL loop accumulates, starting from the empty list
(`scraper-engine/app/main.py` line 195). -/
def process_chunk_items (urls : List String) (fetch : String → FetchOutcome) :
    Except String (List ScrapedItem) :=
  process_chunk_go fetch [] urls

/-- One result document (`scraper-engine/app/main.py` lines 209-215). -/
structure ChunkResult where
  chunk_number : String
  urls_processed : ℕ
  scraped_items : List ScrapedItem
  success_count : ℕ
  error_count : ℕ
deriving DecidableEq, Repr

/-- The result dictionary built at `scraper-engine/app/main.py` lines
209-215: successes are the items whose `error` is falsy, errors the
rest. -/
def mkChunkResult (chunk_number : String) (urls : List String)
    (scraped_items : List ScrapedItem) : ChunkResult :=
  { chunk_number := chunk_number
    urls_processed := urls.length
    scraped_items := scraped_items
    success_count := (scraped_items.filter (fun item => !(pyTruthyErr item))).length
    error_count := (scraped_items.filter (fun item => pyTruthyErr item)).length }

/-- Processing of one chunk file end to end: the result document is
written only when the URL loop completes. -/
def process_chunk (chunk_number : String) (urls : List String)
    (fetch : String → FetchOutcome) : Except String ChunkResult :=
  (process_chunk_items urls fetch).map (mkChunkResult chunk_number urls)

theorem process_go_shift (fetch : String → FetchOutcome) (urls : List String) :
    ∀ acc, process_chunk_go fetch acc urls =
      (process_chunk_go fetch [] urls).map (fun items => acc ++ items) := by
  induction urls with
  | nil => intro acc; simp [process_chunk_go, Except.map]
  | cons u rest ih =>
      intro acc
      simp only [process_chunk_go]
      cases h : scrape_amazon_search u (fetch u) with
      | error e => simp [Except.map]
      | ok items =>
          dsimp only
          rw [ih (acc ++ items), ih ([] ++ items)]
          cases h2 : process_chunk_go fetch [] rest with
          | error e => simp [Except.map]
          | ok tailItems => simp [Except.map, List.append_assoc]

theorem process_go_append (fetch : String → FetchOutcome) (us1 us2 : List String) :
    ∀ acc, process_chunk_go fetch acc (us1 ++ us2) =
      match process_chunk_go fetch acc us1 with
      | .error e => .error e
      | .ok items => process_chunk_go fetch items us2 := by
  induction us1 with
  | nil => intro acc; simp [process_chunk_go]
  | cons u rest ih =>
      intro acc
      simp only [List.cons_append, process_chunk_go]
      cases h : scrape_amazon_search u (fetch u) with
      | error e => rfl
      | ok items => exact ih (acc ++ items)

/-- C7 (amended).  An exception raised inside the per-URL `try` block
(navigation failure, timeout, selector or extraction error) is caught
and converted to exactly one ScrapedItem whose `error` field is the
exception's description, and the loop continues: the chunk's item list
is the items before the failing URL, then that single error record, then
the items after it.  The amendment: this holds only for exceptions
raised inside the `try` block — an exception raised while acquiring the
browser session (before the `try`) is not caught and aborts the chunk
(see `c7_cex`). -/
theorem c7_amended (us1 us2 : List String) (u e : String)
    (fetch : String → FetchOutcome) (h : fetch u = .failure e) :
    scrape_amazon_search u (fetch u) = .ok [error_scraped_item u e] ∧
    (error_scraped_item u e).error = some e ∧
    ∀ items1 items2,
      process_chunk_items us1 fetch = .ok items1 →
      process_chunk_items us2 fetch = .ok items2 →
      process_chunk_items (us1 ++ u :: us2) fetch =
        .ok (items1 ++ [error_scraped_item u e] ++ items2) := by
  have hs : scrape_amazon_search u (fetch u) = .ok [error_scraped_item u e] := by
    rw [h]; rfl
  refine ⟨hs, rfl, ?_⟩
  intro items1 items2 h1 h2
  unfold process_chunk_items at h1 h2 ⊢
  rw [process_go_append fetch us1 (u :: us2) [], h1]
  simp only [process_chunk_go, hs]
  rw [process_go_shift fetch us2 (items1 ++ [error_scraped_item u e]), h2]
  simp [Except.map, List.append_assoc]

/-- A fetch behaviour raising a browser-launch exception on the first
URL. -/
def fetch_crash : String → FetchOutcome := fun url =>
  if url == "https://www.amazon.com/s?k=echo+dot" then
    .launchFailure "BrowserType.launch: executable not found"
  else .success [{ title := "Kindle Paperwhite", price := "$99.00",
                   price_numeric := 99, buyers := 500 }]

/-- C7 counterexample: the claim covers ANY exception raised while
processing a single URL; but `p.chromium.launch` and
`browser.new_page()` run before the `try` block, so an exception there
is not converted to an error item — the whole chunk loop aborts with the
exception and no ChunkResult items are produced, even though the second
URL would have succeeded. -/
theorem c7_cex :
    process_chunk_items
      ["https://www.amazon.com/s?k=echo+dot", "https://www.amazon.com/s?k=kindle"]
      fetch_crash = .error "BrowserType.launch: executable not found" := by rfl

/-- A fetch behaviour: one URL times out inside the `try` block, every
other URL succeeds with one retained container. -/
def fetch_mixed : String → FetchOutcome := fun url =>
  if url == "u-bad" then .failure "Timeout 30000ms exceeded"
  else .success [{ title := "Echo Dot", price := "$22.00",
                   price_numeric := 22, buyers := 1000 }]

/-- Witness for `c7_amended` on a concrete three-URL chunk whose middle
URL fails inside the `try` block. -/
theorem c7_wit :
    fetch_mixed "u-bad" = .failure "Timeout 30000ms exceeded" ∧
    (scrape_amazon_search "u-bad" (fetch_mixed "u-bad") =
        .ok [error_scraped_item "u-bad" "Timeout 30000ms exceeded"] ∧
     (error_scraped_item "u-bad" "Timeout 30000ms exceeded").error =
        some "Timeout 30000ms exceeded" ∧
     ∀ items1 items2,
       process_chunk_items ["https://www.amazon.com/s?k=echo+dot"] fetch_mixed =
          .ok items1 →
       process_chunk_items ["https://www.amazon.com/s?k=kindle"] fetch_mixed =
          .ok items2 →
       process_chunk_items
           (["https://www.amazon.com/s?k=echo+dot"] ++
             "u-bad" :: ["https://www.amazon.com/s?k=kindle"]) fetch_mixed =
         .ok (items1 ++ [error_scraped_item "u-bad" "Timeout 30000ms exceeded"]
           ++ items2)) :=
  ⟨rfl, c7_amended ["https://www.amazon.com/s?k=echo+dot"]
    ["https://www.amazon.com/s?k=kindle"] "u-bad" "Timeout 30000ms exceeded"
    fetch_mixed rfl⟩

/-- A list's length is the number of falsy-error items plus the number
of truthy-error items. -/
theorem count_partition (items : List ScrapedItem) :
    (items.filter (fun item => !(pyTruthyErr item))).length +
      (items.filter (fun item => pyTruthyErr item)).length = items.length := by
  induction items with
  | nil => rfl
  | cons i t ih =>
      simp only [List.filter_cons]
      cases h : pyTruthyErr i <;> simp [h] <;> omega

/-- C8 (confirmed).  Every result document the extractor writes has
`success_count + error_count = len(scraped_items)`: each item is counted
exactly once, as a success when its `error` field is falsy (absent,
`null` or empty) and as an error otherwise. -/
theorem c8_counts (chunk_number : String) (urls : List String)
    (fetch : String → FetchOutcome) (r : ChunkResult)
    (h : process_chunk chunk_number urls fetch = .ok r) :
    r.success_count + r.error_count = r.scraped_items.length := by
  unfold process_chunk at h
  cases hp : process_chunk_items urls fetch with
  | error e => rw [hp] at h; simp [Except.map] at h
  | ok items =>
      rw [hp] at h
      simp only [Except.map] at h
      injection h with h
      subst h
      simpa [mkChunkResult] using count_partition items

/-- Witness for `c8_counts` on a concrete two-URL chunk with one success
and one caught failure. -/
theorem c8_wit :
    process_chunk "3" ["https://www.amazon.com/s?k=echo+dot", "u-bad"] fetch_mixed =
      .ok (mkChunkResult "3" ["https://www.amazon.com/s?k=echo+dot", "u-bad"]
        [success_scraped_item "https://www.amazon.com/s?k=echo+dot"
          { title := "Echo Dot", price := "$22.00", price_numeric := 22, buyers := 1000 },
         error_scraped_item "u-bad" "Timeout 30000ms exceeded"]) ∧
    (mkChunkResult "3" ["https://www.amazon.com/s?k=echo+dot", "u-bad"]
        [success_scraped_item "https://www.amazon.com/s?k=echo+dot"
          { title := "Echo Dot", price := "$22.00", price_numeric := 22, buyers := 1000 },
         error_scraped_item "u-bad" "Timeout 30000ms exceeded"]).success_count +
      (mkChunkResult "3" ["https://www.amazon.com/s?k=echo+dot", "u-bad"]
        [success_scraped_item "https://www.amazon.com/s?k=echo+dot"
          { title := "Echo Dot", price := "$22.00", price_numeric := 22, buyers := 1000 },
         error_scraped_item "u-bad" "Timeout 30000ms exceeded"]).error_count =
      (mkChunkResult "3" ["https://www.amazon.com/s?k=echo+dot", "u-bad"]
        [success_scraped_item "https://www.amazon.com/s?k=echo+dot"
          { title := "Echo Dot", price := "$22.00", price_numeric := 22, buyers := 1000 },
         error_scraped_item "u-bad" "Timeout 30000ms exceeded"]).scraped_items.length :=
  ⟨rfl, c8_counts "3" ["https://www.amazon.com/s?k=echo+dot", "u-bad"] fetch_mixed _ rfl⟩

theorem extract_fold_filterMap (url : String) :
    ∀ (l : List Container) (acc : List ScrapedItem),
      l.foldl (fun products c =>
          if c.title ≠ "Unknown" ∧ c.price ≠ "Unknown" then
            products ++ [success_scraped_item url c]
          else products) acc =
        acc ++ l.filterMap (fun c =>
          if c.title ≠ "Unknown" ∧ c.price ≠ "Unknown" then
            some (success_scraped_item url c)
          else none) := by
  intro l
  induction l with
  | nil => intro acc; simp
  | cons c t ih =>
      intro acc
      simp only [List.foldl_cons, List.filterMap_cons]
      by_cases h : c.title ≠ "Unknown" ∧ c.price ≠ "Unknown"
      · rw [if_pos h, if_pos h, ih]
        simp
      · rw [if_neg h, if_neg h, ih]

/-- C9 (confirmed).  Among the (at most 10) examined containers, a
product record is appended exactly for those whose extracted title and
price display both differ from `"Unknown"`, in order; containers failing
the quality filter contribute nothing — neither an item nor an error
record. -/
theorem c9_retention (url : String) (containers : List Container) :
    extract_retained url containers =
      (containers.take 10).filterMap (fun c =>
        if c.title ≠ "Unknown" ∧ c.price ≠ "Unknown" then
          some (success_scraped_item url c)
        else none) := by
  unfold extract_retained
  simpa using extract_fold_filterMap url (containers.take 10) []
